import Mathlib

/-!
Verification of the raw request/response layer of the egg-mode Twitter
client.  The file `src/raw.rs` of the repository is a thin public façade:
it re-exports the parameter model, the OAuth signer, the request builders,
the executor, and the pagination/stream adapters from internal modules and
adds four trivial adapter constructors.  The internal modules themselves
are not part of the shipped sources, so the components below are modelled
from the specification of that layer and the façade's documentation, and
the theorems settle the specified properties against those models.
-/

namespace EggMode

/-! ## Percent encoding (RFC 3986 unreserved set) -/

/-- Modelled from the spec: percent-encoding with the RFC 3986 unreserved
set (`A-Z a-z 0-9 - . _ ~`); every other byte of the UTF-8 encoding
becomes `%HH` with uppercase hex.  The implementation lives in the
`percent_encoding` usage of the common module, which is not under `src/`. -/
def isUnreserved (c : Nat) : Bool :=
  (65 ≤ c && c ≤ 90) || (97 ≤ c && c ≤ 122) || (48 ≤ c && c ≤ 57) ||
  c == 45 || c == 46 || c == 95 || c == 126

/-- Uppercase hex digit for a value below 16. -/
def hexDigit (n : Nat) : Char :=
  if n < 10 then Char.ofNat (48 + n) else Char.ofNat (55 + n)

/-- Percent-encode a single byte. -/
def encodeByte (b : Nat) : List Char :=
  if isUnreserved b then [Char.ofNat b]
  else ['%', hexDigit (b / 16), hexDigit (b % 16)]

/-- Percent-encode a string byte-by-byte over its UTF-8 encoding. -/
def percentEncode (s : String) : String :=
  String.mk ((s.toUTF8.toList.map (fun b => encodeByte b.toNat)).flatten)

/-! ## ParamList -/

/-- A `ParamList` is an insertion-ordered list of key/value parameters.
Modelled from the spec: mapping from parameter name to a single string
value, duplicate names disallowed, insertion order preserved for query
output but irrelevant for signing. -/
abbrev ParamList : Type := List (String × String)

/-- Errors of the raw layer, following the spec's taxonomy. -/
inductive RawError where
  | duplicateParam
  | network (cause : String)
  | badStatus (status : Nat) (limit remaining reset : Int) (body : String)
  | twitterErrors (errs : List (Int × String)) (status : Nat) (limit remaining reset : Int)
  | deserialize (context : String)
  | exhausted
deriving Repr, DecidableEq

/-- Modelled from the spec: `add(key, value)` is idempotent with respect to
identical pairs and fails with `DuplicateParam` when the same key is added
with a differing value. -/
def ParamList.add (p : ParamList) (k v : String) : Except RawError ParamList :=
  match List.lookup k p with
  | some v0 => if v0 = v then .ok p else .error .duplicateParam
  | none => .ok (p ++ [(k, v)])

/-- Modelled from the spec: `extend(iter)` applies `add` pairwise. -/
def ParamList.extend (p : ParamList) (ps : List (String × String)) :
    Except RawError ParamList :=
  ps.foldlM (fun acc kv => acc.add kv.1 kv.2) p

/-- Modelled from the spec: `to_query_string` produces `k1=v1&k2=v2…` with
percent-encoding, in the caller's insertion order. -/
def ParamList.toQueryString (p : ParamList) : String :=
  String.intercalate "&"
    (p.map fun q => percentEncode q.1 ++ "=" ++ percentEncode q.2)

/-! ## Signature base string (RFC 5849 §3.4.1) -/

/-- Order on percent-encoded parameter pairs: lexicographic by encoded
key, ties broken by encoded value. -/
def pairLe (a b : String × String) : Prop :=
  a.1 < b.1 ∨ (a.1 = b.1 ∧ a.2 ≤ b.2)

instance : DecidableRel pairLe := fun a b => by
  unfold pairLe; infer_instance

instance : IsTotal (String × String) pairLe where
  total a b := by
    rcases lt_trichotomy a.1 b.1 with h | h | h
    · exact Or.inl (Or.inl h)
    · rcases le_total a.2 b.2 with h2 | h2
      · exact Or.inl (Or.inr ⟨h, h2⟩)
      · exact Or.inr (Or.inr ⟨h.symm, h2⟩)
    · exact Or.inr (Or.inl h)

instance : IsTrans (String × String) pairLe where
  trans a b c hab hbc := by
    rcases hab with h1 | ⟨e1, l1⟩ <;> rcases hbc with h2 | ⟨e2, l2⟩
    · exact Or.inl (h1.trans h2)
    · exact Or.inl (e2 ▸ h1)
    · exact Or.inl (e1 ▸ h2)
    · exact Or.inr ⟨e1.trans e2, l1.trans l2⟩

instance : IsAntisymm (String × String) pairLe where
  antisymm a b hab hba := by
    rcases hab with h1 | ⟨e1, l1⟩
    · rcases hba with h2 | ⟨e2, l2⟩
      · exact absurd (h1.trans h2) (lt_irrefl _)
      · exact absurd h1 (e2 ▸ lt_irrefl _)
    · rcases hba with h2 | ⟨e2, l2⟩
      · exact absurd h2 (e1 ▸ lt_irrefl _)
      · exact Prod.ext e1 (le_antisymm l1 l2)

/-- ASCII uppercase of a string, for the signature base method. -/
def upperAscii (s : String) : String := String.mk (s.data.map Char.toUpper)

/-- The sorted-and-joined parameter string of RFC 5849 §3.4.1: encode the
keys and values, sort lexicographically by encoded key with ties broken by
encoded value, join as `k=v` with `&`. -/
def sortedParamString (l : List (String × String)) : String :=
  String.intercalate "&"
    (((l.map fun q => (percentEncode q.1, percentEncode q.2)).insertionSort pairLe).map
      fun q => q.1 ++ "=" ++ q.2)

/-- Modelled from the spec: `to_signature_base(method, url)` produces the
RFC 5849 §3.4.1 signature base string — uppercase method, percent-encoded
base URL, percent-encoded sorted parameter string.  The parameters include
both the `ParamList` entries and the OAuth protocol parameters (everything
except `oauth_signature`), passed here as `oauth`. -/
def ParamList.toSignatureBase (p : ParamList) (method url : String)
    (oauth : List (String × String)) : String :=
  upperAscii method ++ "&" ++ percentEncode url ++ "&" ++
    percentEncode (sortedParamString (p ++ oauth))

/-- Sorting the encoded parameter pairs depends only on the multiset of
pairs: permuted inputs sort to the same list. -/
theorem sortedParamString_perm {l1 l2 : List (String × String)} (h : l1.Perm l2) :
    sortedParamString l1 = sortedParamString l2 := by
  unfold sortedParamString
  have henc : (l1.map fun q => (percentEncode q.1, percentEncode q.2)).Perm
      (l2.map fun q => (percentEncode q.1, percentEncode q.2)) := h.map _
  have hsort :
      ((l1.map fun q => (percentEncode q.1, percentEncode q.2)).insertionSort pairLe) =
      ((l2.map fun q => (percentEncode q.1, percentEncode q.2)).insertionSort pairLe) :=
    List.eq_of_perm_of_sorted
      (((List.perm_insertionSort pairLe _).trans henc).trans
        (List.perm_insertionSort pairLe _).symm)
      (List.sorted_insertionSort pairLe _)
      (List.sorted_insertionSort pairLe _)
  rw [hsort]

/-- In a `ParamList` with distinct keys, `lookup` finds the value of any
member pair. -/
theorem lookup_eq_of_nodup_mem {p : ParamList} {k v : String}
    (hnd : (p.map Prod.fst).Nodup) (hm : (k, v) ∈ p) :
    List.lookup k p = some v := by
  induction p with
  | nil => cases hm
  | cons hd tl ih =>
    rcases List.mem_cons.mp hm with h | h
    · subst h
      simp [List.lookup]
    · have hk : ¬(k == hd.1) = true := by
        intro hkk
        have hk' : k = hd.1 := by simpa using hkk
        have : hd.1 ∈ tl.map Prod.fst :=
          hk' ▸ List.mem_map.mpr ⟨(k, v), h, rfl⟩
        exact (List.nodup_cons.mp hnd).1 this
      simpa [List.lookup, hk] using ih (List.nodup_cons.mp hnd).2 h

/-- C1: for every `ParamList` built by add/extend calls (hence with the
same multiset of key/value pairs in any insertion order), the OAuth
signature base string of `to_signature_base(method, url)` is invariant
under permutation of the insertion order: the parameters are sorted
lexicographically by percent-encoded key with ties broken by
percent-encoded value. -/
theorem signature_base_insertion_order_invariant
    (method url : String) (oauth : List (String × String))
    (p1 p2 : ParamList) (h : p1.Perm p2) :
    p1.toSignatureBase method url oauth = p2.toSignatureBase method url oauth := by
  unfold ParamList.toSignatureBase
  rw [sortedParamString_perm (h.append_right oauth)]

/-- Witness for C1: the two insertion orders of `{a:1, b:2}` give the same
signature base string. -/
theorem signature_base_insertion_order_invariant_witness :
    ([("b", "2"), ("a", "1")] : ParamList).Perm [("a", "1"), ("b", "2")] ∧
    ParamList.toSignatureBase [("b", "2"), ("a", "1")] "get" "https://x/y" [] =
      ParamList.toSignatureBase [("a", "1"), ("b", "2")] "get" "https://x/y" [] :=
  ⟨by decide,
   signature_base_insertion_order_invariant "get" "https://x/y" []
     [("b", "2"), ("a", "1")] [("a", "1"), ("b", "2")] (by decide)⟩

/-- C7: adding an identical pair to a `ParamList` already containing it
succeeds and returns the list unchanged, while adding the same key with a
differing value fails with `DuplicateParam` (and, the list being returned
only on success, leaves it unchanged). -/
theorem paramlist_add_idempotent_and_duplicate
    (p : ParamList) (k v1 v2 : String)
    (hnd : (p.map Prod.fst).Nodup) (hm : (k, v1) ∈ p) :
    p.add k v1 = .ok p ∧ (v2 ≠ v1 → p.add k v2 = .error .duplicateParam) := by
  have hl := lookup_eq_of_nodup_mem hnd hm
  refine ⟨?_, fun hne => ?_⟩
  · simp [ParamList.add, hl]
  · simp [ParamList.add, hl, (Ne.symm hne)]

/-- Witness for C7 at `P = [(a,1)]`: re-adding `(a,1)` succeeds unchanged,
adding `(a,2)` fails with `DuplicateParam`. -/
theorem paramlist_add_idempotent_and_duplicate_witness :
    ParamList.add [("a", "1")] "a" "1" = .ok [("a", "1")] ∧
    ParamList.add [("a", "1")] "a" "2" = .error .duplicateParam :=
  ⟨(paramlist_add_idempotent_and_duplicate [("a", "1")] "a" "1" "2"
      (by decide) (by decide)).1,
   (paramlist_add_idempotent_and_duplicate [("a", "1")] "a" "1" "2"
      (by decide) (by decide)).2 (by decide)⟩

/-! ## Token and OAuth signer -/

/-- Authentication credentials: consumer key/secret plus user key/secret,
or an app-only bearer string. -/
inductive Token where
  | access (consumerKey consumerSecret userKey userSecret : String)
  | bearer (b : String)
deriving Repr, DecidableEq

/-- The OAuth protocol parameters other than `oauth_signature`, in the
order the `Authorization` header lists them. -/
def oauthProtocolParams (consumerKey userKey nonce : String) (timestamp : Nat) :
    List (String × String) :=
  [("oauth_consumer_key", consumerKey),
   ("oauth_nonce", nonce),
   ("oauth_signature_method", "HMAC-SHA1"),
   ("oauth_timestamp", toString timestamp),
   ("oauth_token", userKey),
   ("oauth_version", "1.0")]

/-- Modelled from the spec: the signing key is
`percent_encode(consumer_secret) + "&" + percent_encode(token_secret)`. -/
def signingKey (consumerSecret userSecret : String) : String :=
  percentEncode consumerSecret ++ "&" ++ percentEncode userSecret

/-- Modelled from the spec: the `Authorization` header value.  For an
access token: sign the signature base string of the parameters plus the
OAuth protocol parameters, then emit `OAuth k="v", …` with every `oauth_*`
pair percent-encoded and double-quoted.  For a bearer token: emit
`Bearer <token>` verbatim, no signing.  The nonce and timestamp are
explicit inputs (the implementation draws them from a CSPRNG and the
clock), and `mac` abstracts `base64 ∘ HMAC-SHA1`, whose internals no claim
depends on. -/
def authorizationHeader (mac : String → String → String)
    (method url : String) (params : ParamList) (token : Token)
    (nonce : String) (timestamp : Nat) : String :=
  match token with
  | .bearer b => "Bearer " ++ b
  | .access ck cs uk us =>
    let base := params.toSignatureBase method url (oauthProtocolParams ck uk nonce timestamp)
    let sig := mac (signingKey cs us) base
    let headerParams :=
      (oauthProtocolParams ck uk nonce timestamp).take 2 ++
        [("oauth_signature", sig)] ++
        (oauthProtocolParams ck uk nonce timestamp).drop 2
    "OAuth " ++ String.intercalate ", "
      (headerParams.map fun q => percentEncode q.1 ++ "=\"" ++ percentEncode q.2 ++ "\"")

/-! ## Request builders -/

/-- A prepared HTTP request: method, URL (with query appended for GET),
`Authorization` header, optional `Content-Type`, `User-Agent`, body
bytes (modelled as a string). -/
structure HttpRequest where
  method : String
  url : String
  authorization : String
  contentType : Option String
  userAgent : String
  body : String
deriving Repr, DecidableEq

/-- Modelled from the spec: `request_get` appends `?<query>` iff the
parameters are non-empty, sends no body, and signs over the parameters. -/
def request_get (mac : String → String → String) (url : String) (token : Token)
    (params : ParamList) (nonce : String) (timestamp : Nat) : HttpRequest :=
  { method := "GET"
    url := if params.isEmpty then url else url ++ "?" ++ params.toQueryString
    authorization := authorizationHeader mac "GET" url params token nonce timestamp
    contentType := none
    userAgent := "egg-mode"
    body := "" }

/-- Modelled from the spec: `request_post` puts the query string in the
body as `x-www-form-urlencoded` data and signs over the parameters. -/
def request_post (mac : String → String → String) (url : String) (token : Token)
    (params : ParamList) (nonce : String) (timestamp : Nat) : HttpRequest :=
  { method := "POST"
    url := url
    authorization := authorizationHeader mac "POST" url params token nonce timestamp
    contentType := some "application/x-www-form-urlencoded"
    userAgent := "egg-mode"
    body := params.toQueryString }

/-- Modelled from the spec and the façade's documentation: `request_post_json`
puts the caller-provided JSON bytes in the body as `application/json`, and
the provided data is *not* used as part of the OAuth signature — the
signature is computed over an empty `ParamList`. -/
def request_post_json (mac : String → String → String) (url : String) (token : Token)
    (jsonBytes : String) (nonce : String) (timestamp : Nat) : HttpRequest :=
  { method := "POST"
    url := url
    authorization := authorizationHeader mac "POST" url [] token nonce timestamp
    contentType := some "application/json"
    userAgent := "egg-mode"
    body := jsonBytes }

/-- C2: `request_post_json` builds a POST request whose body is exactly the
given JSON bytes with `Content-Type: application/json`, and whose OAuth
signature is computed over an empty `ParamList`: its `Authorization`
header equals the one produced for the same url and token with no
parameters at all (here, the empty-parameter POST of `request_post`),
for every mac, nonce and timestamp. -/
theorem request_post_json_body_unsigned
    (mac : String → String → String) (url : String) (token : Token)
    (jsonBytes nonce : String) (timestamp : Nat) :
    (request_post_json mac url token jsonBytes nonce timestamp).method = "POST" ∧
    (request_post_json mac url token jsonBytes nonce timestamp).body = jsonBytes ∧
    (request_post_json mac url token jsonBytes nonce timestamp).contentType =
      some "application/json" ∧
    (request_post_json mac url token jsonBytes nonce timestamp).authorization =
      (request_post mac url token [] nonce timestamp).authorization ∧
    (request_post_json mac url token jsonBytes nonce timestamp).authorization =
      authorizationHeader mac "POST" url [] token nonce timestamp :=
  ⟨rfl, rfl, rfl, rfl, rfl⟩

/-! ## JSON values and parsing

Modelled from the spec: the executor parses non-success bodies as
`\x7b"errors":[\x7b code, message \x7d, …]\x7d`, and the stream parses
each non-empty line as one JSON message.  The parser below accepts the
JSON value grammar (null, booleans, integers, strings with the common
escapes, arrays, objects) with insignificant whitespace. -/

/-- JSON values; numbers restricted to integers, which is all the wire
shapes of this layer use. -/
inductive Json where
  | null
  | bool (b : Bool)
  | num (n : Int)
  | str (s : String)
  | arr (items : List Json)
  | obj (fields : List (String × Json))
deriving Repr

/-- Drop leading JSON whitespace. -/
def skipWs : List Char → List Char
  | c :: cs => if c = ' ' ∨ c = '\t' ∨ c = '\n' ∨ c = '\r' then skipWs cs else c :: cs
  | [] => []

/-- The backslash escapes accepted in string literals, as an association
list from the escape letter to the character it denotes. -/
def escapeTable : List (Char × Char) :=
  [('"', '"'), ('\\', '\\'), ('/', '/'), ('n', '\n'), ('r', '\r'), ('t', '\t')]

/-- Parse the remainder of a JSON string literal after the opening quote:
returns the decoded characters and the input after the closing quote. -/
def parseStringBody : List Char → Option (List Char × List Char)
  | [] => none
  | '"' :: rest => some ([], rest)
  | '\\' :: e :: rest =>
    match List.lookup e escapeTable with
    | some c => (parseStringBody rest).map fun r => (c :: r.1, r.2)
    | none => none
  | c :: rest => (parseStringBody rest).map fun r => (c :: r.1, r.2)

/-- Parse a non-empty run of decimal digits. -/
def parseDigits (cs : List Char) : Option (Nat × List Char) :=
  let ds := cs.takeWhile Char.isDigit
  if ds.isEmpty then none
  else some (ds.foldl (fun a c => a * 10 + (c.toNat - 48)) 0, cs.dropWhile Char.isDigit)

/-- Parse an optionally-signed integer literal. -/
def parseIntLit : List Char → Option (Int × List Char)
  | '-' :: cs => (parseDigits cs).map fun r => (-(r.1 : Int), r.2)
  | cs => (parseDigits cs).map fun r => ((r.1 : Int), r.2)

/-- The opening brace character. -/
def braceOpen : Char := Char.ofNat 123

/-- The closing brace character. -/
def braceClose : Char := Char.ofNat 125

/-- Parser modes: a single value, the items of an array after `[`, or the
fields of an object after the opening brace.  A single mode-indexed
function keeps the recursion structural on the fuel, so that concrete
parses reduce inside the kernel. -/
inductive PMode where
  | value
  | arrayItems
  | objFields

/-- Fuel-indexed JSON parser.  In `value` mode it parses one JSON value;
in `arrayItems` mode the remaining comma-separated values up to `]`,
returned as `Json.arr`; in `objFields` mode the remaining
`"key": value` fields up to the closing brace, returned as `Json.obj`. -/
def parseCore : Nat → PMode → List Char → Option (Json × List Char)
  | 0, _, _ => none
  | fuel + 1, .value, cs =>
    (match skipWs cs with
     | 'n' :: 'u' :: 'l' :: 'l' :: rest => some (.null, rest)
     | 't' :: 'r' :: 'u' :: 'e' :: rest => some (.bool true, rest)
     | 'f' :: 'a' :: 'l' :: 's' :: 'e' :: rest => some (.bool false, rest)
     | '"' :: rest => (parseStringBody rest).map fun r => (.str (String.mk r.1), r.2)
     | '[' :: rest =>
       (match skipWs rest with
        | ']' :: rest2 => some (.arr [], rest2)
        | _ => parseCore fuel .arrayItems rest)
     | c :: rest =>
       if c = braceOpen then
         match skipWs rest with
         | c2 :: rest2 =>
           if c2 = braceClose then some (.obj [], rest2)
           else parseCore fuel .objFields rest
         | [] => none
       else (parseIntLit (c :: rest)).map fun r => (.num r.1, r.2)
     | [] => none)
  | fuel + 1, .arrayItems, cs =>
    (match parseCore fuel .value cs with
     | some (v, rest) =>
       (match skipWs rest with
        | ',' :: rest2 =>
          (match parseCore fuel .arrayItems rest2 with
           | some (.arr items, rest3) => some (.arr (v :: items), rest3)
           | _ => none)
        | ']' :: rest2 => some (.arr [v], rest2)
        | _ => none)
     | none => none)
  | fuel + 1, .objFields, cs =>
    (match skipWs cs with
     | '"' :: rest =>
       (match parseStringBody rest with
        | some (key, rest2) =>
          (match skipWs rest2 with
           | ':' :: rest3 =>
             (match parseCore fuel .value rest3 with
              | some (v, rest4) =>
                (match skipWs rest4 with
                 | ',' :: rest5 =>
                   (match parseCore fuel .objFields rest5 with
                    | some (.obj fields, rest6) =>
                      some (.obj ((String.mk key, v) :: fields), rest6)
                    | _ => none)
                 | c :: rest5 =>
                   if c = braceClose then some (.obj [(String.mk key, v)], rest5) else none
                 | [] => none)
              | none => none)
           | _ => none)
        | none => none)
     | _ => none)

/-- Parse a whole string as one JSON value (only trailing whitespace may
remain). -/
def parseJson (s : String) : Option Json :=
  match parseCore (2 * s.data.length + 2) .value s.data with
  | some (v, rest) => if (skipWs rest).isEmpty then some v else none
  | none => none

/-! ## Rate-limit metadata -/

/-- Rate-limit metadata: limit, remaining, reset-epoch-seconds; `-1` is the
"unknown" value used when a header is absent. -/
structure RateLimit where
  limit : Int
  remaining : Int
  reset : Int
deriving Repr, DecidableEq

/-- ASCII lowercase of a string, for case-insensitive header names. -/
def lowerAscii (s : String) : String := String.mk (s.data.map Char.toLower)

/-- Case-insensitive header lookup. -/
def headerLookup (hs : List (String × String)) (name : String) : Option String :=
  (hs.find? fun h => lowerAscii h.1 == lowerAscii name).map Prod.snd

/-- Parse a header value as a decimal natural number. -/
def parseNatAscii (s : String) : Option Nat :=
  if s.data.isEmpty || !(s.data.all Char.isDigit) then none
  else some (s.data.foldl (fun a c => a * 10 + (c.toNat - 48)) 0)

/-- Modelled from the spec: one rate-limit field, `-1` when the header is
absent (a value distinguishable from every real header value). -/
def rateLimitField (hs : List (String × String)) (name : String) : Int :=
  match headerLookup hs name with
  | some v =>
    match parseNatAscii v with
    | some n => (n : Int)
    | none => -1
  | none => -1

/-- Modelled from the spec: extract the three `x-rate-limit-*` headers. -/
def rateLimit (hs : List (String × String)) : RateLimit :=
  { limit := rateLimitField hs "x-rate-limit-limit"
    remaining := rateLimitField hs "x-rate-limit-remaining"
    reset := rateLimitField hs "x-rate-limit-reset" }

/-! ## Executor -/

/-- An HTTP response delivered by the transport. -/
structure HttpResponse where
  status : Nat
  headers : List (String × String)
  body : String
deriving Repr, DecidableEq

/-- Extract the `(code, message)` pair of one Twitter error object. -/
def errorRecord : Json → Option (Int × String)
  | .obj fields =>
    match List.lookup "code" fields, List.lookup "message" fields with
    | some (.num c), some (.str m) => some (c, m)
    | _, _ => none
  | _ => none

/-- Extract the error list of a Twitter error body. -/
def errorsFromJson : Json → Option (List (Int × String))
  | .obj fields =>
    match List.lookup "errors" fields with
    | some (.arr items) => items.mapM errorRecord
    | _ => none
  | _ => none

/-- Parse a response body as `\x7b"errors":[\x7b code, message \x7d, …]\x7d`. -/
def parseTwitterErrors (body : String) : Option (List (Int × String)) :=
  (parseJson body).bind errorsFromJson

/-- Modelled from the spec: `response_raw_bytes` awaits the response
(`Except.error` is a transport failure), extracts the rate-limit headers,
returns headers and body on a 2xx status, and otherwise surfaces
`TwitterErrors` when the body parses as a Twitter error object and
`BadStatus` when it does not.  Nothing is retried. -/
def response_raw_bytes (r : Except String HttpResponse) :
    Except RawError (List (String × String) × String) :=
  match r with
  | .error cause => .error (.network cause)
  | .ok resp =>
    if 200 ≤ resp.status ∧ resp.status < 300 then .ok (resp.headers, resp.body)
    else
      match parseTwitterErrors resp.body with
      | some errs =>
        .error (.twitterErrors errs resp.status (rateLimit resp.headers).limit
          (rateLimit resp.headers).remaining (rateLimit resp.headers).reset)
      | none =>
        .error (.badStatus resp.status (rateLimit resp.headers).limit
          (rateLimit resp.headers).remaining (rateLimit resp.headers).reset resp.body)

/-- C3: `response_raw_bytes` classifies responses exactly: 2xx returns the
headers and body; non-2xx whose body parses as a Twitter error object
fails with `TwitterErrors` carrying the code/message list, the status and
the rate-limit metadata; non-2xx whose body does not parse so fails with
`BadStatus` carrying the status, rate-limit metadata and raw bytes; a
transport failure fails with `Network`. -/
theorem response_raw_bytes_classification (r : Except String HttpResponse) :
    (∀ resp, r = .ok resp → 200 ≤ resp.status → resp.status < 300 →
      response_raw_bytes r = .ok (resp.headers, resp.body)) ∧
    (∀ resp errs, r = .ok resp → ¬(200 ≤ resp.status ∧ resp.status < 300) →
      parseTwitterErrors resp.body = some errs →
      response_raw_bytes r = .error (.twitterErrors errs resp.status
        (rateLimit resp.headers).limit (rateLimit resp.headers).remaining
        (rateLimit resp.headers).reset)) ∧
    (∀ resp, r = .ok resp → ¬(200 ≤ resp.status ∧ resp.status < 300) →
      parseTwitterErrors resp.body = none →
      response_raw_bytes r = .error (.badStatus resp.status
        (rateLimit resp.headers).limit (rateLimit resp.headers).remaining
        (rateLimit resp.headers).reset resp.body)) ∧
    (∀ cause, r = .error cause → response_raw_bytes r = .error (.network cause)) := by
  refine ⟨?_, ?_, ?_, ?_⟩
  · intro resp hr h1 h2
    subst hr
    simp [response_raw_bytes, h1, h2]
  · intro resp errs hr hs hp
    subst hr
    simp [response_raw_bytes, hs, hp]
  · intro resp hr hs hp
    subst hr
    simp [response_raw_bytes, hs, hp]
  · intro cause hr
    subst hr
    rfl

/-- Witness for C3: the spec's concrete scenario — HTTP 429 with a
rate-limit-exceeded error body and `x-rate-limit-reset: 1700000000`
produces `TwitterErrors([(88, "Rate limit exceeded")], 429,
reset = 1700000000)` (limit and remaining headers absent, hence `-1`). -/
theorem response_raw_bytes_classification_witness :
    response_raw_bytes (.ok
      { status := 429
        headers := [("x-rate-limit-reset", "1700000000")]
        body := "\x7b\"errors\":[\x7b\"code\":88,\"message\":\"Rate limit exceeded\"\x7d]\x7d" }) =
      .error (.twitterErrors [(88, "Rate limit exceeded")] 429 (-1) (-1) 1700000000) :=
  (response_raw_bytes_classification _).2.1
    { status := 429
      headers := [("x-rate-limit-reset", "1700000000")]
      body := "\x7b\"errors\":[\x7b\"code\":88,\"message\":\"Rate limit exceeded\"\x7d]\x7d" }
    [(88, "Rate limit exceeded")] rfl (by decide) (by decide)

/-- C9: the rate-limit metadata consists of the three integers parsed from
the `x-rate-limit-limit`, `-remaining` and `-reset` headers; an absent
header yields the designated unknown value `-1`, which is not `0` and is
distinct from every value a real header can parse to. -/
theorem rate_limit_extraction (hs : List (String × String)) :
    (∀ v n, headerLookup hs "x-rate-limit-limit" = some v →
      parseNatAscii v = some n → (rateLimit hs).limit = n) ∧
    (∀ v n, headerLookup hs "x-rate-limit-remaining" = some v →
      parseNatAscii v = some n → (rateLimit hs).remaining = n) ∧
    (∀ v n, headerLookup hs "x-rate-limit-reset" = some v →
      parseNatAscii v = some n → (rateLimit hs).reset = n) ∧
    (headerLookup hs "x-rate-limit-limit" = none → (rateLimit hs).limit = -1) ∧
    (headerLookup hs "x-rate-limit-remaining" = none → (rateLimit hs).remaining = -1) ∧
    (headerLookup hs "x-rate-limit-reset" = none → (rateLimit hs).reset = -1) ∧
    ((-1 : Int) ≠ 0) ∧
    (∀ s n, parseNatAscii s = some n → ((n : Int) ≠ -1)) := by
  refine ⟨?_, ?_, ?_, ?_, ?_, ?_, by decide, ?_⟩
  · intro v n hv hn
    simp [rateLimit, rateLimitField, hv, hn]
  · intro v n hv hn
    simp [rateLimit, rateLimitField, hv, hn]
  · intro v n hv hn
    simp [rateLimit, rateLimitField, hv, hn]
  · intro hv
    simp [rateLimit, rateLimitField, hv]
  · intro hv
    simp [rateLimit, rateLimitField, hv]
  · intro hv
    simp [rateLimit, rateLimitField, hv]
  · intro s n _
    omega

/-- Witness for C9: with only the reset header present (case-insensitive),
reset parses to its value and the other two fields are the unknown `-1`. -/
theorem rate_limit_extraction_witness :
    (rateLimit [("X-Rate-Limit-Reset", "1700000000")]).reset = 1700000000 ∧
    (rateLimit [("X-Rate-Limit-Reset", "1700000000")]).limit = -1 ∧
    (rateLimit [("X-Rate-Limit-Reset", "1700000000")]).remaining = -1 :=
  ⟨(rate_limit_extraction [("X-Rate-Limit-Reset", "1700000000")]).2.2.1 "1700000000"
      1700000000 (by decide) (by decide),
   (rate_limit_extraction [("X-Rate-Limit-Reset", "1700000000")]).2.2.2.1 (by decide),
   (rate_limit_extraction [("X-Rate-Limit-Reset", "1700000000")]).2.2.2.2.1 (by decide)⟩

/-! ## CursorIter

Modelled from the spec: state is the current cursor (starting at the `-1`
sentinel), a page size hint and a terminal flag.  The network is
represented by an oracle from the requested cursor to the server's page;
each operation also returns the list of requests it issued, so "no
request is made" is the empty list. -/

/-- A cursor page: `next_cursor`/`previous_cursor` plus items; cursor `0`
is the terminal sentinel. -/
structure CursorPage (α : Type) where
  next_cursor : Int
  previous_cursor : Int
  items : List α
deriving Repr

/-- The cursor-paginated iterator. -/
structure CursorIter (α : Type) where
  url : String
  token : Token
  params : Option ParamList
  pageSize : Option Int
  cursor : Int
  terminal : Bool
deriving Repr

/-- Modelled from the spec: a fresh `CursorIter` starts at the `-1`
sentinel and is not terminal. -/
def CursorIter.new {α : Type} (url : String) (token : Token)
    (params : Option ParamList) (pageSize : Option Int) : CursorIter α :=
  { url := url, token := token, params := params, pageSize := pageSize
    cursor := -1, terminal := false }

/-- Modelled from the spec: `next_page()` fails with `Exhausted` when
already terminal (issuing no request); otherwise it requests the current
cursor, moves to the page's `next_cursor`, becomes terminal exactly when
that cursor is `0`, and returns the page's items. -/
def CursorIter.nextPage {α : Type} (it : CursorIter α)
    (oracle : Int → Except RawError (CursorPage α)) :
    Except RawError (List α × CursorIter α) × List Int :=
  if it.terminal then (.error .exhausted, [])
  else
    match oracle it.cursor with
    | .error e => (.error e, [it.cursor])
    | .ok page =>
      (.ok (page.items,
        { it with cursor := page.next_cursor, terminal := page.next_cursor == 0 }),
       [it.cursor])

/-- C4: the `Fresh → Active → Terminal` state machine of `CursorIter`: a
fresh iterator starts at the `-1` sentinel and non-terminal; a successful
`next_page` on a non-terminal iterator issues exactly one request for the
current cursor, moves to the page's `next_cursor`, and the iterator is
terminal afterwards exactly when the returned page's `next_cursor` is `0`;
`next_page` on a terminal iterator fails with `Exhausted` and issues no
request (so terminal is absorbing). -/
theorem cursor_iter_state_machine {α : Type} (url : String) (token : Token)
    (params : Option ParamList) (ps : Option Int)
    (it : CursorIter α) (oracle : Int → Except RawError (CursorPage α))
    (page : CursorPage α) :
    ((CursorIter.new url token params ps : CursorIter α).cursor = -1 ∧
     (CursorIter.new url token params ps : CursorIter α).terminal = false) ∧
    (it.terminal = false → oracle it.cursor = .ok page →
      it.nextPage oracle =
        (.ok (page.items,
          { it with cursor := page.next_cursor, terminal := page.next_cursor == 0 }),
         [it.cursor]) ∧
      (({ it with cursor := page.next_cursor, terminal := page.next_cursor == 0 } : CursorIter α).terminal = true ↔
        page.next_cursor = 0)) ∧
    (it.terminal = true → it.nextPage oracle = (.error .exhausted, [])) := by
  refine ⟨⟨rfl, rfl⟩, fun hterm hor => ⟨?_, ?_⟩, fun hterm => ?_⟩
  · simp [CursorIter.nextPage, hterm, hor]
  · simp
  · simp [CursorIter.nextPage, hterm]

/-- Witness for C4: a terminal iterator fails with `Exhausted` issuing no
request, and a non-terminal one stepping onto `next_cursor = 0` becomes
terminal. -/
theorem cursor_iter_state_machine_witness :
    CursorIter.nextPage (α := Nat)
      { url := "u", token := .bearer "b", params := none, pageSize := none
        cursor := 42, terminal := true }
      (fun _ => .error (.network "down")) = (.error .exhausted, []) ∧
    CursorIter.nextPage (α := Nat)
      { url := "u", token := .bearer "b", params := none, pageSize := none
        cursor := -1, terminal := false }
      (fun _ => .ok { next_cursor := 0, previous_cursor := 0, items := [7] }) =
      (.ok ([7],
        { url := "u", token := .bearer "b", params := none, pageSize := none
          cursor := 0, terminal := true }), [-1]) :=
  ⟨(cursor_iter_state_machine "u" (.bearer "b") none none
      { url := "u", token := .bearer "b", params := none, pageSize := none
        cursor := 42, terminal := true }
      (fun _ => .error (.network "down"))
      { next_cursor := 0, previous_cursor := 0, items := [] }).2.2 rfl,
   ((cursor_iter_state_machine "u" (.bearer "b") none none
      { url := "u", token := .bearer "b", params := none, pageSize := none
        cursor := -1, terminal := false }
      (fun _ => .ok { next_cursor := 0, previous_cursor := 0, items := [7] })
      { next_cursor := 0, previous_cursor := 0, items := [7] }).2.1 rfl rfl).1⟩

/-! ## Timeline

Modelled from the spec: state is the `(max_id, since_id)` window plus the
page count hint.  Items are tweet ids (unsigned integers).  The network is
an oracle from the `(max_id, since_id)` window the request would carry to
the list of ids of the returned page; a server honoring `max_id` (its
interpretation is inclusive) never returns an id above it.  Each call also
returns the list of requests issued. -/

/-- A timeline of tweets or direct messages over the `max_id`/`since_id`
protocol. -/
structure Timeline where
  url : String
  token : Token
  params : Option ParamList
  count : Option Nat
  maxId : Option Nat
  sinceId : Option Nat
  done : Bool
deriving Repr, DecidableEq

/-- Modelled from the spec: a fresh timeline has no window bounds. -/
def Timeline.new (url : String) (params : Option ParamList) (token : Token) : Timeline :=
  { url := url, token := token, params := params, count := none
    maxId := none, sinceId := none, done := false }

/-- Smallest id of a page (`0` for an empty page; only used non-empty). -/
def listMin : List Nat → Nat
  | [] => 0
  | x :: xs => xs.foldl min x

/-- The updated `max_id` after a page whose smallest id is `m`:
`min(current_max, m − 1)`, with natural (saturating) subtraction. -/
def newMaxOf : Option Nat → Nat → Nat
  | none, m => m - 1
  | some c, m => min c (m - 1)

/-- Modelled from the spec: `older()` issues a request with the current
window and returns the page.  On a non-empty page it updates
`max_id := min(current_max, smallest_id − 1)` with saturating
subtraction; underflow at id `0` transitions to the terminal (empty-page)
behavior, under which no further request is issued. -/
def Timeline.older (t : Timeline) (oracle : Option Nat → Option Nat → List Nat) :
    (List Nat × Timeline) × List (Option Nat × Option Nat) :=
  cond t.done (([], t), [])
    (match oracle t.maxId t.sinceId with
     | [] => (([], t), [(t.maxId, t.sinceId)])
     | p :: ps =>
       ((p :: ps,
         { t with maxId := some (newMaxOf t.maxId (listMin (p :: ps))),
                  done := listMin (p :: ps) == 0 }),
        [(t.maxId, t.sinceId)]))

/-- All ids returned by `n` successive `older()` calls. -/
def olderRun (t : Timeline) (oracle : Option Nat → Option Nat → List Nat) : Nat → List Nat
  | 0 => []
  | n + 1 => ((t.older oracle).1).1 ++ olderRun ((t.older oracle).1).2 oracle n

/-- A server that honors the inclusive `max_id` bound of a request. -/
def HonestServer (oracle : Option Nat → Option Nat → List Nat) : Prop :=
  ∀ mx si i, i ∈ oracle (some mx) si → i ≤ mx

/-- A timeline in the terminal (empty-page) state returns no ids and stays
terminal. -/
theorem olderRun_done_nil (oracle : Option Nat → Option Nat → List Nat)
    (t : Timeline) (hdone : t.done = true) :
    ∀ n, olderRun t oracle n = [] := by
  intro n
  induction n with
  | zero => rfl
  | succ n ih =>
    simp only [olderRun, Timeline.older, hdone, cond_true]
    simpa using ih

/-- Invariant: under an honest server, every id ever returned after a state
whose `max_id` is `M` is at most `M`. -/
theorem olderRun_le_of_maxId (oracle : Option Nat → Option Nat → List Nat)
    (honest : HonestServer oracle) :
    ∀ (n : Nat) (t : Timeline) (M : Nat), t.maxId = some M →
      ∀ i ∈ olderRun t oracle n, i ≤ M := by
  intro n
  induction n with
  | zero => intro t M _ i hi; cases hi
  | succ n ih =>
    intro t M hM i hi
    by_cases hdone : t.done = true
    · rw [olderRun_done_nil oracle t hdone] at hi
      cases hi
    · have hdf : t.done = false := by simpa using hdone
      rw [olderRun] at hi
      cases hpage : oracle t.maxId t.sinceId with
      | nil =>
        simp only [Timeline.older, hdf, cond_false, hpage, List.nil_append] at hi
        exact ih t M hM i hi
      | cons p ps =>
        simp only [Timeline.older, hdf, cond_false, hpage] at hi
        rcases List.mem_append.mp hi with hin | hin
        · rw [hM] at hpage
          exact honest M t.sinceId i (by rw [hpage]; exact hin)
        · have hnew : newMaxOf t.maxId (listMin (p :: ps)) ≤ M := by
            rw [hM]; exact min_le_left _ _
          exact le_trans (ih _ _ rfl i hin) hnew

/-- C5: after an `older()` call returns a non-empty page, the timeline's
`max_id` becomes `min(current_max, smallest_id − 1)` (or `smallest_id − 1`
when no bound was set), and — against any server honoring `max_id` — no
subsequent `older()` call ever returns an id greater than or equal to the
page's smallest id. -/
theorem timeline_older_window
    (t : Timeline) (oracle : Option Nat → Option Nat → List Nat)
    (page : List Nat) (t2 : Timeline) (log : List (Option Nat × Option Nat))
    (honest : HonestServer oracle)
    (hstep : t.older oracle = ((page, t2), log))
    (hne : page ≠ []) :
    (∀ c, t.maxId = some c → t2.maxId = some (min c (listMin page - 1))) ∧
    (t.maxId = none → t2.maxId = some (listMin page - 1)) ∧
    (∀ n i, i ∈ olderRun t2 oracle n → i < listMin page) := by
  have hdf : t.done = false := by
    cases h : t.done
    · rfl
    · rw [Timeline.older, h, cond_true] at hstep
      cases hstep
      exact absurd rfl hne
  rw [Timeline.older, hdf, cond_false] at hstep
  cases hpage : oracle t.maxId t.sinceId with
  | nil =>
    rw [hpage] at hstep
    cases hstep
    exact absurd rfl hne
  | cons p ps =>
    rw [hpage] at hstep
    cases hstep
    refine ⟨fun c hc => by simp [newMaxOf, hc], fun hc => by simp [newMaxOf, hc], ?_⟩
    intro n i hi
    by_cases hm : listMin (p :: ps) = 0
    · rw [olderRun_done_nil oracle _ (by simp [hm]) n] at hi
      cases hi
    · have hle := olderRun_le_of_maxId oracle honest n _
        (newMaxOf t.maxId (listMin (p :: ps))) rfl i hi
      have hnew : newMaxOf t.maxId (listMin (p :: ps)) ≤ listMin (p :: ps) - 1 := by
        cases hmx : t.maxId with
        | none => simp [newMaxOf]
        | some c => simp [newMaxOf]
      omega

/-- Fixture timeline state for the C5 witness: the state after the first
`older()` page `[100, 99, 97]`, with `max_id = 96`. -/
def timelineW : Timeline :=
  { url := "u", token := .bearer "b", params := none, count := none
    maxId := some 96, sinceId := none, done := false }

/-- Fixture server for the C5 witness: first page `[100, 99, 97]`, then
`[96]` while the bound allows it; honors `max_id`. -/
def oracleW : Option Nat → Option Nat → List Nat
  | none, _ => [100, 99, 97]
  | some c, _ => if 96 ≤ c then [96] else []

/-- The fixture server honors `max_id`. -/
theorem oracleW_honest : HonestServer oracleW := by
  intro mx si i hi
  simp only [oracleW] at hi
  by_cases h : 96 ≤ mx
  · rw [if_pos h] at hi
    simp only [List.mem_singleton] at hi
    omega
  · rw [if_neg h] at hi
    cases hi

/-- Witness for C5: from a fresh timeline, the page `[100, 99, 97]` sets
`max_id = 96`, and the id `96` returned later is below the page's smallest
id `97`. -/
theorem timeline_older_window_witness :
    (Timeline.older (Timeline.new "u" none (.bearer "b")) oracleW =
      (([100, 99, 97], timelineW), [(none, none)])) ∧
    (96 : Nat) ∈ olderRun timelineW oracleW 3 ∧ 96 < listMin [100, 99, 97] :=
  ⟨by decide, by decide,
   (timeline_older_window (Timeline.new "u" none (.bearer "b")) oracleW
      [100, 99, 97] timelineW [(none, none)] oracleW_honest (by decide)
      (by decide)).2.2 3 96 (by decide)⟩

/-- C8: when a non-empty page's smallest id is `0`, the `smallest_id − 1`
update saturates at `0` instead of wrapping around, and the timeline
transitions to the terminal (empty-page) behavior: every further `older()`
returns an empty page without issuing a request, and no id is ever
returned again. -/
theorem timeline_older_saturating_at_zero
    (t : Timeline) (oracle : Option Nat → Option Nat → List Nat)
    (hdone : t.done = false)
    (hpage : oracle t.maxId t.sinceId ≠ [])
    (hmin : listMin (oracle t.maxId t.sinceId) = 0) :
    ((t.older oracle).1).1 = oracle t.maxId t.sinceId ∧
    (((t.older oracle).1).2).done = true ∧
    (((t.older oracle).1).2).maxId = some 0 ∧
    Timeline.older (((t.older oracle).1).2) oracle = (([], ((t.older oracle).1).2), []) ∧
    (∀ n, olderRun (((t.older oracle).1).2) oracle n = []) := by
  cases hp : oracle t.maxId t.sinceId with
  | nil => exact absurd hp hpage
  | cons p ps =>
    rw [hp] at hmin
    have hstep : t.older oracle =
        ((p :: ps,
          { t with maxId := some (newMaxOf t.maxId (listMin (p :: ps))),
                   done := listMin (p :: ps) == 0 }),
         [(t.maxId, t.sinceId)]) := by
      simp only [Timeline.older, hdone, cond_false, hp]
    have hdone2 : (((t.older oracle).1).2).done = true := by
      rw [hstep]
      simp [hmin]
    refine ⟨by simp only [hstep, hp], hdone2, ?_, ?_, olderRun_done_nil oracle _ hdone2⟩
    · rw [hstep]
      cases hmx : t.maxId with
      | none => simp [newMaxOf, hmin]
      | some c => simp [newMaxOf, hmin]
    · rw [hstep]
      simp [Timeline.older, hmin]

/-- Fixture timeline for the C8 witness. -/
def timelineW0 : Timeline :=
  { url := "u", token := .bearer "b", params := none, count := none
    maxId := some 5, sinceId := none, done := false }

/-- Fixture server for the C8 witness: always answers `[3, 0]`. -/
def oracleW0 : Option Nat → Option Nat → List Nat :=
  fun _ _ => [3, 0]

/-- Witness for C8: the page `[3, 0]` contains id `0`; the timeline becomes
terminal with `max_id = 0` (saturated, not wrapped) and two further
`older()` calls return nothing. -/
theorem timeline_older_saturating_at_zero_witness :
    (((timelineW0.older oracleW0).1).2).done = true ∧
    (((timelineW0.older oracleW0).1).2).maxId = some 0 ∧
    olderRun (((timelineW0.older oracleW0).1).2) oracleW0 2 = [] :=
  ⟨(timeline_older_saturating_at_zero timelineW0 oracleW0 rfl (by decide) (by decide)).2.1,
   (timeline_older_saturating_at_zero timelineW0 oracleW0 rfl (by decide) (by decide)).2.2.1,
   (timeline_older_saturating_at_zero timelineW0 oracleW0 rfl (by decide) (by decide)).2.2.2.2 2⟩

/-! ## Stream framing

Modelled from the spec: the response body is split on CRLF into maximal
complete lines plus a trailing partial frame held in the buffer; empty
lines are keep-alive pings yielding no message; every non-empty line must
parse as one JSON message, and a parse failure fails the stream with
`Deserialize` with no recovery. -/

/-- Split a byte stream into its complete CRLF-delimited lines and the
trailing partial frame. -/
def frames : List Char → List (List Char) × List Char
  | [] => ([], [])
  | [c] => ([], [c])
  | c1 :: c2 :: rest =>
    if c1 = '\r' ∧ c2 = '\n' then
      (([] : List Char) :: (frames rest).1, (frames rest).2)
    else
      match frames (c2 :: rest) with
      | ([], part) => ([], c1 :: part)
      | (l :: ls, part) => ((c1 :: l) :: ls, part)

/-- Emit the JSON messages of a list of complete lines: keep-alives yield
nothing, a failed parse fails everything with `Deserialize`. -/
def streamMessages : List (List Char) → Except RawError (List Json)
  | [] => .ok []
  | l :: ls =>
    if l.isEmpty then streamMessages ls
    else
      match parseJson (String.mk l) with
      | some j =>
        (match streamMessages ls with
         | .ok ms => .ok (j :: ms)
         | .error e => .error e)
      | none => .error (.deserialize (String.mk l))

/-- The messages of a whole stream body. -/
def streamBodyMessages (body : String) : Except RawError (List Json) :=
  streamMessages (frames body.data).1

/-- The number of keep-alive (empty) lines of a stream body. -/
def keepAliveCount (body : String) : Nat :=
  (((frames body.data).1).filter List.isEmpty).length

/-- Whether a stream result is a `Deserialize` failure. -/
def isDeserializeFailure : Except RawError (List Json) → Bool
  | .error (.deserialize _) => true
  | _ => false

/-- Concatenating the complete lines, each with its CRLF delimiter, and
the trailing partial frame reconstructs the byte stream. -/
theorem frames_concat : ∀ (cs : List Char),
    (((frames cs).1.map fun l => l ++ ['\r', '\n']).flatten) ++ (frames cs).2 = cs
  | [] => rfl
  | [c] => by simp [frames]
  | c1 :: c2 :: rest => by
    by_cases h : c1 = '\r' ∧ c2 = '\n'
    · obtain ⟨h1, h2⟩ := h
      subst h1
      subst h2
      have ih := frames_concat rest
      simp [frames, ih]
    · have ih := frames_concat (c2 :: rest)
      cases hf : frames (c2 :: rest) with
      | mk ls part =>
        cases ls with
        | nil =>
          rw [hf] at ih
          simp only [List.map_nil, List.flatten_nil, List.nil_append] at ih
          simp [frames, h, hf, ih]
        | cons l ls2 =>
          rw [hf] at ih
          simp only [frames, h, hf]
          simpa using ih

/-- A failing non-empty line fails `streamMessages` with `Deserialize`,
wherever it occurs. -/
theorem streamMessages_fail {ls : List (List Char)} {l : List Char}
    (hmem : l ∈ ls) (hne : l ≠ []) (hfail : parseJson (String.mk l) = none) :
    isDeserializeFailure (streamMessages ls) = true := by
  induction ls with
  | nil => cases hmem
  | cons h t ih =>
    rcases List.mem_cons.mp hmem with rfl | hmem2
    · have hni : l.isEmpty = false := by
        cases l with
        | nil => exact absurd rfl hne
        | cons a as => rfl
      simp [streamMessages, hni, hfail, isDeserializeFailure]
    · by_cases hh : h.isEmpty = true
      · simpa [streamMessages, hh] using ih hmem2
      · have hhf : h.isEmpty = false := by simpa using hh
        cases hp : parseJson (String.mk h) with
        | none => simp [streamMessages, hhf, hp, isDeserializeFailure]
        | some j =>
          cases hs : streamMessages t with
          | ok ms =>
            have hcontra := ih hmem2
            rw [hs] at hcontra
            simp [isDeserializeFailure] at hcontra
          | error e =>
            have htail := ih hmem2
            rw [hs] at htail
            simpa [streamMessages, hhf, hp, hs] using htail

/-- C6: stream framing — the concatenation of the CRLF-delimited lines
(messages and keep-alives) with their delimiters and the partial frame
equals the received byte stream; a non-empty line that fails JSON parsing
fails the stream with `Deserialize`; and the concrete byte stream
`\x7b"a":1\x7d\r\n\r\n\x7b"a":2\x7d\r\n` yields exactly the two messages
`\x7b a:1 \x7d` and `\x7b a:2 \x7d` with one keep-alive between them. -/
theorem stream_framing (body : String) :
    ((((frames body.data).1.map fun l => l ++ ['\r', '\n']).flatten) ++ (frames body.data).2
      = body.data) ∧
    (∀ l, l ∈ (frames body.data).1 → l ≠ [] → parseJson (String.mk l) = none →
      isDeserializeFailure (streamBodyMessages body) = true) ∧
    (streamBodyMessages "\x7b\"a\":1\x7d\r\n\r\n\x7b\"a\":2\x7d\r\n" =
      .ok [.obj [("a", .num 1)], .obj [("a", .num 2)]]) ∧
    (keepAliveCount "\x7b\"a\":1\x7d\r\n\r\n\x7b\"a\":2\x7d\r\n" = 1) :=
  ⟨frames_concat body.data,
   fun _ h1 h2 h3 => streamMessages_fail h1 h2 h3,
   rfl, rfl⟩

/-- Witness for C6: the stream body `x\r\n` has the non-empty non-JSON
line `x` and fails with `Deserialize`. -/
theorem stream_framing_witness :
    isDeserializeFailure (streamBodyMessages "x\r\n") = true :=
  (stream_framing "x\r\n").2.1 ['x'] (by decide) (by decide) rfl

/-! ## Façade adapter constructors (`src/raw.rs`) -/

/-- Façade adapter `request_as_tweet_timeline` (src/raw.rs:83): wraps the
inputs into a fresh tweet `Timeline`. -/
def request_as_tweet_timeline (url : String) (token : Token)
    (params : Option ParamList) : Timeline :=
  Timeline.new url params token

/-- Façade adapter `request_as_dm_timeline` (src/raw.rs:92): wraps the
inputs into a fresh direct-message `Timeline` (same protocol, different
item type). -/
def request_as_dm_timeline (url : String) (token : Token)
    (params : Option ParamList) : Timeline :=
  Timeline.new url params token

/-- Façade adapter `request_as_cursor_iter` (src/raw.rs:101): wraps the
inputs into a fresh `CursorIter`. -/
def request_as_cursor_iter {α : Type} (url : String) (token : Token)
    (params : Option ParamList) (pageSize : Option Int) : CursorIter α :=
  CursorIter.new url token params pageSize

/-- A long-lived stream wrapper: the request it will drive and the buffer
of the partial frame, initially empty.  Modelled from the spec; the
`TwitterStream` type itself is not under `src/`. -/
structure TwitterStream where
  req : HttpRequest
  buffer : List Char
deriving Repr, DecidableEq

/-- Constructor of `TwitterStream`: stores the request with an empty
buffer. -/
def TwitterStream.new (req : HttpRequest) : TwitterStream :=
  { req := req, buffer := [] }

/-- Façade adapter `response_as_stream` (src/raw.rs:120): wraps the
request into a `TwitterStream`. -/
def response_as_stream (req : HttpRequest) : TwitterStream :=
  TwitterStream.new req

/-- C10: every adapter constructor of the façade is total and effect-free
at construction time: for all inputs it returns exactly the constructed
wrapper value — a fresh timeline, a fresh cursor iterator at the `-1`
sentinel, or a stream with an empty buffer — with no failure case and no
request issued (in this embedding all I/O is a consultation of the
server oracle, which only the page/stream operations perform). -/
theorem adapter_constructors_total_pure {α : Type} (url : String) (token : Token)
    (params : Option ParamList) (pageSize : Option Int) (req : HttpRequest) :
    request_as_tweet_timeline url token params =
      { url := url
        token := token
        params := params
        count := none
        maxId := none
        sinceId := none
        done := false } ∧
    request_as_dm_timeline url token params =
      { url := url
        token := token
        params := params
        count := none
        maxId := none
        sinceId := none
        done := false } ∧
    (request_as_cursor_iter url token params pageSize : CursorIter α) =
      { url := url
        token := token
        params := params
        pageSize := pageSize
        cursor := -1
        terminal := false } ∧
    response_as_stream req = { req := req, buffer := [] } :=
  ⟨rfl, rfl, rfl, rfl⟩

end EggMode
